import Mathlib

/-!
Shallow embedding of the Meshtastic channel-URL encoder from
`src/js/qr-generator.js` (Hyphae Mesh), together with proofs of the
specification's testable properties.

Bytes are modelled as `Nat` (values below 256), byte sequences as `List Nat`,
and JavaScript strings as `List Char`.  JavaScript bitwise operators work on
32-bit integers (`ToInt32`/`ToUint32` coercions), which the definitions below
reproduce explicitly with `% 4294967296` where it matters.
-/

namespace Nodeville

/-- JavaScript `ToInt32`: interpret a number's low 32 bits as a signed
32-bit integer. -/
def toInt32 (n : Nat) : Int :=
  if n % 4294967296 < 2147483648 then ((n % 4294967296 : Nat) : Int)
  else ((n % 4294967296 : Nat) : Int) - 4294967296

/--
The `while (value > 0x7f)` loop of `encodeVarint` from qr-generator.js,
for a non-negative current value.  Each iteration pushes
`(value & 0x7f) | 0x80` and updates `value >>>= 7`; in JavaScript `&` and
`>>>` truncate to 32 bits, so the update is `(value % 2^32) / 128`.
The final byte is `value & 0x7f`.
-/
def encodeVarintLoop (v : Nat) : List Nat :=
  if h : v > 127 then
    (v % 128 + 128) :: encodeVarintLoop (v % 4294967296 / 128)
  else
    [v % 128]
termination_by v
decreasing_by
  omega

/--
`encodeVarint` from qr-generator.js on an arbitrary (possibly negative)
integer input.  For a negative input the loop guard `value > 0x7f` is false
immediately and the single pushed byte is `value & 0x7f`, i.e. the low seven
bits of the 32-bit two's-complement representation.
-/
def encodeVarint (value : Int) : List Nat :=
  if 0 ≤ value then encodeVarintLoop value.toNat
  else [(value.emod 128).toNat]

/--
The varint encoding as the spec describes it: base-128, 7-bit groups in
little-endian group order, continuation (high) bit set on every byte except
the last.  Written from the spec's words, to be compared with `encodeVarint`.
-/
def varintSpecEncoding (v : Nat) : List Nat :=
  if h : v > 127 then (v % 128 + 128) :: varintSpecEncoding (v / 128)
  else [v]
termination_by v
decreasing_by
  exact Nat.div_lt_self (by omega) (by omega)

theorem encodeVarintLoop_eq_spec (v : Nat) (hv : v < 4294967296) :
    encodeVarintLoop v = varintSpecEncoding v := by
  induction v using Nat.strong_induction_on with
  | _ v ih =>
    rw [encodeVarintLoop, varintSpecEncoding]
    by_cases h : v > 127
    · simp only [dif_pos h]
      rw [Nat.mod_eq_of_lt hv]
      congr 1
      exact ih (v / 128) (Nat.div_lt_self (by omega) (by omega)) (by omega)
    · simp only [dif_neg h]
      rw [Nat.mod_eq_of_lt (by omega)]

theorem encodeVarint_nonneg_eq_loop (v : Nat) :
    encodeVarint (v : Int) = encodeVarintLoop v := by
  simp [encodeVarint]

/-- The argument of `encodeField`: JavaScript passes either a number (for the
varint wire type) or a byte array (for the length-delimited wire type). -/
inductive FieldData where
  | varint (value : Int)
  | bytes (data : List Nat)

/-- Protobuf wire-type constants from qr-generator.js. -/
def WIRE_TYPE_VARINT : Nat := 0

def WIRE_TYPE_LENGTH_DELIMITED : Nat := 2

/--
The tag computed by `encodeField`: `(fieldNumber << 3) | wireType` under
JavaScript 32-bit bitwise semantics.  `fieldNumber << 3` keeps the low 32
bits of `fieldNumber * 8` interpreted as a signed 32-bit integer, and
or-ing a wire type below 8 fills the (zero) low three bits, i.e. adds it.
-/
def jsTag (fieldNumber wireType : Nat) : Int :=
  toInt32 (fieldNumber * 8 % 4294967296 + wireType)

/--
`encodeField` from qr-generator.js: varint-encoded tag, then for the varint
wire type the varint of the value, for the length-delimited wire type the
varint of the payload length followed by the payload, and for any other wire
type the tag bytes alone.  Every call site in the source passes a number
exactly when the wire type is VARINT and a byte array exactly when it is
LENGTH_DELIMITED, so only the matching constructor cases are exercised.
-/
def encodeField (fieldNumber wireType : Nat) (data : FieldData) : List Nat :=
  let tagBytes := encodeVarint (jsTag fieldNumber wireType)
  if wireType = WIRE_TYPE_VARINT then
    match data with
    | FieldData.varint v => tagBytes ++ encodeVarint v
    | FieldData.bytes _ => tagBytes
  else if wireType = WIRE_TYPE_LENGTH_DELIMITED then
    match data with
    | FieldData.bytes d => tagBytes ++ encodeVarint (d.length : Int) ++ d
    | FieldData.varint _ => tagBytes
  else tagBytes

/-- UTF-8 encoding of one character (the `TextEncoder` collaborator). -/
def utf8EncodeChar (c : Char) : List Nat :=
  let n := c.toNat
  if n < 128 then [n]
  else if n < 2048 then [192 + n / 64, 128 + n % 64]
  else if n < 65536 then [224 + n / 4096, 128 + n / 64 % 64, 128 + n % 64]
  else [240 + n / 262144, 128 + n / 4096 % 64, 128 + n / 64 % 64, 128 + n % 64]

/-- UTF-8 encoding of a string (the `TextEncoder` collaborator). -/
def utf8Encode (s : List Char) : List Nat :=
  s.flatMap utf8EncodeChar

/-- `encodeString` from qr-generator.js. -/
def encodeString (fieldNumber : Nat) (str : List Char) : List Nat :=
  encodeField fieldNumber WIRE_TYPE_LENGTH_DELIMITED (FieldData.bytes (utf8Encode str))

/-- `encodeBytes` from qr-generator.js. -/
def encodeBytes (fieldNumber : Nat) (bytes : List Nat) : List Nat :=
  encodeField fieldNumber WIRE_TYPE_LENGTH_DELIMITED (FieldData.bytes bytes)

/-- `encodeUint32` from qr-generator.js. -/
def encodeUint32 (fieldNumber : Nat) (value : Nat) : List Nat :=
  encodeField fieldNumber WIRE_TYPE_VARINT (FieldData.varint value)

/-- `encodeBool` from qr-generator.js. -/
def encodeBool (fieldNumber : Nat) (value : Bool) : List Nat :=
  encodeField fieldNumber WIRE_TYPE_VARINT (FieldData.varint (if value then 1 else 0))

/-- `concatUint8Arrays` from qr-generator.js: byte-exact concatenation. -/
def concatUint8Arrays (arrays : List (List Nat)) : List Nat :=
  arrays.flatten

/--
The `ChannelSettings` input object.  `Option` marks a property that may be
absent (`undefined`); the source additionally treats the empty string (a
falsy value) like an absent `name`, and `channelNum` values `≤ 0` are not
emitted.
-/
structure ChannelSettings where
  channelNum : Option Nat := none
  psk : Option (List Nat) := none
  name : Option (List Char) := none
  uplinkEnabled : Option Bool := none
  downlinkEnabled : Option Bool := none

/-- The `Channel` input object. -/
structure Channel where
  index : Option Nat := none
  settings : Option ChannelSettings := none
  role : Option Nat := none

/-- The `LoRaConfig` input object. -/
structure LoRaConfig where
  region : Option Nat := none
  modemPreset : Option Nat := none
  hopLimit : Option Nat := none
  txEnabled : Option Bool := none
  txPower : Option Nat := none

/-- The top-level configuration object passed to `buildChannelSet`. -/
structure Config where
  channels : Option (List Channel) := none
  lora : Option LoRaConfig := none

/--
`buildChannelSettings` from qr-generator.js.  Field 1 (`channel_num`) is
pushed only when present and positive; field 3 (`name`) only when present
and non-empty (JavaScript truthiness of the string); fields 2, 5, 6 whenever
present.
-/
def buildChannelSettings (settings : ChannelSettings) : List Nat :=
  concatUint8Arrays
    ((match settings.channelNum with
      | some n => if n > 0 then [encodeUint32 1 n] else []
      | none => []) ++
     (match settings.psk with
      | some p => [encodeBytes 2 p]
      | none => []) ++
     (match settings.name with
      | some s => if s = [] then [] else [encodeString 3 s]
      | none => []) ++
     (match settings.uplinkEnabled with
      | some b => [encodeBool 5 b]
      | none => []) ++
     (match settings.downlinkEnabled with
      | some b => [encodeBool 6 b]
      | none => []))

/-- `buildChannel` from qr-generator.js. -/
def buildChannel (channel : Channel) : List Nat :=
  concatUint8Arrays
    ((match channel.index with
      | some i => [encodeUint32 1 i]
      | none => []) ++
     (match channel.settings with
      | some s =>
          [encodeField 2 WIRE_TYPE_LENGTH_DELIMITED
            (FieldData.bytes (buildChannelSettings s))]
      | none => []) ++
     (match channel.role with
      | some r => [encodeUint32 3 r]
      | none => []))

/-- `buildLoRaConfig` from qr-generator.js. -/
def buildLoRaConfig (lora : LoRaConfig) : List Nat :=
  concatUint8Arrays
    ((match lora.region with
      | some r => [encodeUint32 3 r]
      | none => []) ++
     (match lora.modemPreset with
      | some m => [encodeUint32 4 m]
      | none => []) ++
     (match lora.hopLimit with
      | some hl => [encodeUint32 7 hl]
      | none => []) ++
     (match lora.txEnabled with
      | some b => [encodeBool 11 b]
      | none => []) ++
     (match lora.txPower with
      | some p => [encodeUint32 12 p]
      | none => []))

/-- `buildChannelSet` from qr-generator.js: one length-delimited field 1 per
channel entry, in order, then the LoRa config as length-delimited field 2
when present; the parts are concatenated with no outer wrapping. -/
def buildChannelSet (config : Config) : List Nat :=
  concatUint8Arrays
    ((match config.channels with
      | some chs =>
          chs.map (fun channel =>
            encodeField 1 WIRE_TYPE_LENGTH_DELIMITED
              (FieldData.bytes (buildChannel channel)))
      | none => []) ++
     (match config.lora with
      | some l =>
          [encodeField 2 WIRE_TYPE_LENGTH_DELIMITED
            (FieldData.bytes (buildLoRaConfig l))]
      | none => []))

/-- The standard base64 alphabet used by the `btoa`/`atob` collaborators. -/
def base64Alphabet : List Char :=
  "ABCDEFGHIJKLMNOPQRSTUVWXYZabcdefghijklmnopqrstuvwxyz0123456789+/".data

/-- The base64 digit for a 6-bit value. -/
def b64Char (n : Nat) : Char :=
  base64Alphabet.getD n 'A'

/--
Standard base64 encoding with `=` padding: the `btoa` browser primitive
applied to the binary string that `uint8ArrayToBase64` builds byte by byte
(each byte below 256 becomes one code unit, so `btoa` sees exactly the input
bytes).  Three input bytes yield four base64 digits; a final group of one or
two bytes is padded with `==` or `=`.
-/
def btoa : List Nat → List Char
  | [] => []
  | [a] => [b64Char (a / 4), b64Char (a % 4 * 16), '=', '=']
  | [a, b] => [b64Char (a / 4), b64Char (a % 4 * 16 + b / 16), b64Char (b % 16 * 4), '=']
  | a :: b :: c :: rest =>
      b64Char (a / 4) :: b64Char (a % 4 * 16 + b / 16) ::
        b64Char (b % 16 * 4 + c / 64) :: b64Char (c % 64) :: btoa rest

/-- `uint8ArrayToBase64` from qr-generator.js. -/
def uint8ArrayToBase64 (bytes : List Nat) : List Char :=
  btoa bytes

/-- The first substitution of `uint8ArrayToBase64URL`: `replace(/\+/g, '-')`. -/
def subPlus (c : Char) : Char :=
  if c = '+' then '-' else c

/-- The second substitution of `uint8ArrayToBase64URL`: `replace(/\//g, '_')`. -/
def subSlash (c : Char) : Char :=
  if c = '/' then '_' else c

/-- `uint8ArrayToBase64URL` from qr-generator.js: standard base64, then
`+` → `-`, `/` → `_`, and every `=` removed. -/
def uint8ArrayToBase64URL (bytes : List Nat) : List Char :=
  (((uint8ArrayToBase64 bytes).map subPlus).map subSlash).filter (fun c => c ≠ '=')

/-- The 6-bit value of one base64 digit; `none` for a character outside the
alphabet (such as `=`). -/
def b64DecodeChar (c : Char) : Option Nat :=
  if c ∈ base64Alphabet then some (base64Alphabet.indexOf c) else none

/--
Modelled from the spec: the standard base64 decode primitive (`atob`), the
substrate named in §6 that the repository source does not itself implement.
Decodes four-digit groups into three bytes; `=` padding is accepted only at
the very end (two `=` for a final one-byte group, one `=` for a final
two-byte group, with leftover bits discarded); any character outside the
alphabet elsewhere, or a length that is not a multiple of four, fails.
-/
def atobDecode : List Char → Option (List Nat)
  | [] => some []
  | c1 :: c2 :: c3 :: c4 :: rest =>
      if c3 = '=' ∧ c4 = '=' ∧ rest = [] then
        match b64DecodeChar c1, b64DecodeChar c2 with
        | some n1, some n2 => some [n1 * 4 + n2 / 16]
        | _, _ => none
      else if c4 = '=' ∧ rest = [] then
        match b64DecodeChar c1, b64DecodeChar c2, b64DecodeChar c3 with
        | some n1, some n2, some n3 =>
            some [n1 * 4 + n2 / 16, n2 % 16 * 16 + n3 / 4]
        | _, _, _ => none
      else
        match b64DecodeChar c1, b64DecodeChar c2, b64DecodeChar c3, b64DecodeChar c4 with
        | some n1, some n2, some n3, some n4 =>
            (atobDecode rest).map (fun bs =>
              (n1 * 4 + n2 / 16) :: (n2 % 16 * 16 + n3 / 4) :: (n3 % 4 * 64 + n4) :: bs)
        | _, _, _, _ => none
  | _ => none

/-- Modelled from the spec (§4.4): reinstate the stripped `=` padding from
the length mod 4; a length of 1 mod 4 cannot correspond to any valid
unpadded base64 string and is rejected. -/
def padRestore (s : List Char) : Option (List Char) :=
  if s.length % 4 = 0 then some s
  else if s.length % 4 = 2 then some (s ++ ['=', '='])
  else if s.length % 4 = 3 then some (s ++ ['='])
  else none

/-- The reverse character substitution of the base64url framing:
`-` → `+` and `_` → `/`. -/
def unsub (c : Char) : Char :=
  if c = '-' then '+' else if c = '_' then '/' else c

/--
Modelled from the spec: `fromBase64URL` (§4.4), which the repository source
does not implement (only the encode direction exists in qr-generator.js) —
reinstate padding, reverse the character substitution, then decode standard
base64.
-/
def fromBase64URL (s : List Char) : Option (List Nat) :=
  match padRestore s with
  | some padded => atobDecode (padded.map unsub)
  | none => none

/-- `generateMeshtasticURL` from qr-generator.js. -/
def generateMeshtasticURL (config : Config) : List Char :=
  "https://meshtastic.org/e/#".data ++ uint8ArrayToBase64URL (buildChannelSet config)

/-- The fixed `HYPHAE_MESH_CONFIG.lora` constant from qr-generator.js. -/
def HYPHAE_MESH_LORA : LoRaConfig :=
  { region := some 1
    modemPreset := some 3
    hopLimit := some 6
    txEnabled := some true
    txPower := some 30 }

/-- The configuration object literal built inside `generatePrivateChannelURL`,
given the freshly generated random PSK.  `channelName || 'Private'` falls
back to `'Private'` when the name is absent or empty (falsy). -/
def privateChannelConfig (channelName : Option (List Char)) (psk : List Nat) : Config :=
  { channels := some
      [{ index := some 0
         settings := some
           { channelNum := none
             psk := some psk
             name := some
               (match channelName with
                | some n => if n = [] then "Private".data else n
                | none => "Private".data)
             uplinkEnabled := some false
             downlinkEnabled := some false }
         role := some 1 }]
    lora := some HYPHAE_MESH_LORA }

/-- The `{url, psk}` object returned by `generatePrivateChannelURL`. -/
structure PrivateChannelResult where
  url : List Char
  psk : List Char

/-- `generatePrivateChannelURL` from qr-generator.js, parameterised by the 32
random bytes that `generateRandomPSK` obtains from `crypto.getRandomValues`
(an external collaborator modelled as an input). -/
def generatePrivateChannelURL (channelName : Option (List Char))
    (randomPsk : List Nat) : PrivateChannelResult :=
  { url := generateMeshtasticURL (privateChannelConfig channelName randomPsk)
    psk := uint8ArrayToBase64 randomPsk }

/-! ## Helper lemmas -/

theorem b64Char_mem (n : Nat) : b64Char n ∈ base64Alphabet := by
  by_cases h : n < 64
  · revert n
    decide
  · have h64 : base64Alphabet.length ≤ n := by
      have : base64Alphabet.length = 64 := by decide
      omega
    have he : b64Char n = 'A' := by
      unfold b64Char
      rw [List.getD_eq_default _ _ h64]
    rw [he]
    decide

theorem alphabet_transform : ∀ c ∈ base64Alphabet,
    subSlash (subPlus c) ≠ '=' ∧ unsub (subSlash (subPlus c)) = c ∧ c ≠ '=' := by
  decide

theorem b64DecodeChar_b64Char : ∀ n < 64, b64DecodeChar (b64Char n) = some n := by
  decide

theorem padRestore_append (l1 l2 : List Char) (h : l1.length % 4 = 0) :
    padRestore (l1 ++ l2) = (padRestore l2).map (fun p => l1 ++ p) := by
  have hl : (l1 ++ l2).length % 4 = l2.length % 4 := by
    rw [List.length_append, Nat.add_mod, h]
    simp [Nat.mod_mod_of_dvd]
  unfold padRestore
  rw [hl]
  split_ifs <;> simp [List.append_assoc]

/-- Stripping the padding from the base64url output of `btoa` loses no
information: `padRestore` reinstates exactly the stripped `=` characters and
`unsub` undoes the two character substitutions. -/
theorem base64url_reconstruction (b : List Nat) :
    ∃ p, padRestore (uint8ArrayToBase64URL b) = some p ∧ p.map unsub = btoa b := by
  induction b using btoa.induct with
  | case1 =>
      exact ⟨[], by decide, by decide⟩
  | case2 a =>
      have h1 := alphabet_transform _ (b64Char_mem (a / 4))
      have h2 := alphabet_transform _ (b64Char_mem (a % 4 * 16))
      have hpad : subSlash (subPlus '=') = '=' := by decide
      refine ⟨[subSlash (subPlus (b64Char (a / 4))), subSlash (subPlus (b64Char (a % 4 * 16))),
        '=', '='], ?_, ?_⟩
      · simp only [uint8ArrayToBase64URL, uint8ArrayToBase64, btoa, List.map_cons, List.map_nil,
          hpad, List.filter_cons, List.filter_nil]
        simp [h1.1, h2.1, padRestore]
      · have hun : unsub '=' = '=' := by decide
        simp [h1.2.1, h2.2.1, hun, btoa]
  | case3 a b =>
      have h1 := alphabet_transform _ (b64Char_mem (a / 4))
      have h2 := alphabet_transform _ (b64Char_mem (a % 4 * 16 + b / 16))
      have h3 := alphabet_transform _ (b64Char_mem (b % 16 * 4))
      have hpad : subSlash (subPlus '=') = '=' := by decide
      refine ⟨[subSlash (subPlus (b64Char (a / 4))),
        subSlash (subPlus (b64Char (a % 4 * 16 + b / 16))),
        subSlash (subPlus (b64Char (b % 16 * 4))), '='], ?_, ?_⟩
      · simp only [uint8ArrayToBase64URL, uint8ArrayToBase64, btoa, List.map_cons, List.map_nil,
          hpad, List.filter_cons, List.filter_nil]
        simp [h1.1, h2.1, h3.1, padRestore]
      · have hun : unsub '=' = '=' := by decide
        simp [h1.2.1, h2.2.1, h3.2.1, hun, btoa]
  | case4 a b c rest ih =>
      obtain ⟨p, hp, hu⟩ := ih
      have h1 := alphabet_transform _ (b64Char_mem (a / 4))
      have h2 := alphabet_transform _ (b64Char_mem (a % 4 * 16 + b / 16))
      have h3 := alphabet_transform _ (b64Char_mem (b % 16 * 4 + c / 64))
      have h4 := alphabet_transform _ (b64Char_mem (c % 64))
      have hs : uint8ArrayToBase64URL (a :: b :: c :: rest) =
          [subSlash (subPlus (b64Char (a / 4))),
           subSlash (subPlus (b64Char (a % 4 * 16 + b / 16))),
           subSlash (subPlus (b64Char (b % 16 * 4 + c / 64))),
           subSlash (subPlus (b64Char (c % 64)))] ++
          uint8ArrayToBase64URL rest := by
        simp only [uint8ArrayToBase64URL, uint8ArrayToBase64, btoa, List.map_cons,
          List.filter_cons]
        simp [h1.1, h2.1, h3.1, h4.1]
      refine ⟨[subSlash (subPlus (b64Char (a / 4))),
        subSlash (subPlus (b64Char (a % 4 * 16 + b / 16))),
        subSlash (subPlus (b64Char (b % 16 * 4 + c / 64))),
        subSlash (subPlus (b64Char (c % 64)))] ++ p, ?_, ?_⟩
      · rw [hs, padRestore_append _ _ (by simp), hp]
        rfl
      · simp only [List.map_append, List.map_cons, List.map_nil, hu, h1.2.1, h2.2.1, h3.2.1,
          h4.2.1]
        simp [btoa]

/-- Standard base64 decode is a left inverse of standard base64 encode on
byte sequences. -/
theorem atobDecode_btoa (b : List Nat) (hb : ∀ x ∈ b, x < 256) :
    atobDecode (btoa b) = some b := by
  induction b using btoa.induct with
  | case1 => rfl
  | case2 a =>
      have ha : a < 256 := hb a (by simp)
      have hd1 : b64DecodeChar (b64Char (a / 4)) = some (a / 4) :=
        b64DecodeChar_b64Char _ (by omega)
      have hd2 : b64DecodeChar (b64Char (a % 4 * 16)) = some (a % 4 * 16) :=
        b64DecodeChar_b64Char _ (by omega)
      simp [btoa, atobDecode, hd1, hd2]
      omega
  | case3 a b =>
      have ha : a < 256 := hb a (by simp)
      have hbb : b < 256 := hb b (by simp)
      have hd1 : b64DecodeChar (b64Char (a / 4)) = some (a / 4) :=
        b64DecodeChar_b64Char _ (by omega)
      have hd2 : b64DecodeChar (b64Char (a % 4 * 16 + b / 16)) = some (a % 4 * 16 + b / 16) :=
        b64DecodeChar_b64Char _ (by omega)
      have hd3 : b64DecodeChar (b64Char (b % 16 * 4)) = some (b % 16 * 4) :=
        b64DecodeChar_b64Char _ (by omega)
      have hne : b64Char (b % 16 * 4) ≠ '=' :=
        (alphabet_transform _ (b64Char_mem _)).2.2
      simp [btoa, atobDecode, hne, hd1, hd2, hd3]
      constructor <;> omega
  | case4 a b c rest ih =>
      have ha : a < 256 := hb a (by simp)
      have hbb : b < 256 := hb b (by simp)
      have hc : c < 256 := hb c (by simp)
      have hrest : ∀ x ∈ rest, x < 256 := fun x hx => hb x (by simp [hx])
      have hd1 : b64DecodeChar (b64Char (a / 4)) = some (a / 4) :=
        b64DecodeChar_b64Char _ (by omega)
      have hd2 : b64DecodeChar (b64Char (a % 4 * 16 + b / 16)) = some (a % 4 * 16 + b / 16) :=
        b64DecodeChar_b64Char _ (by omega)
      have hd3 : b64DecodeChar (b64Char (b % 16 * 4 + c / 64)) = some (b % 16 * 4 + c / 64) :=
        b64DecodeChar_b64Char _ (by omega)
      have hd4 : b64DecodeChar (b64Char (c % 64)) = some (c % 64) :=
        b64DecodeChar_b64Char _ (by omega)
      have hne3 : b64Char (b % 16 * 4 + c / 64) ≠ '=' :=
        (alphabet_transform _ (b64Char_mem _)).2.2
      have hne4 : b64Char (c % 64) ≠ '=' :=
        (alphabet_transform _ (b64Char_mem _)).2.2
      have hv1 : a / 4 * 4 + (a % 4 * 16 + b / 16) / 16 = a := by omega
      have hv2 : (a % 4 * 16 + b / 16) % 16 * 16 + (b % 16 * 4 + c / 64) / 4 = b := by omega
      have hv3 : (b % 16 * 4 + c / 64) % 4 * 64 + c % 64 = c := by omega
      simp [btoa, atobDecode, hne3, hne4, hd1, hd2, hd3, hd4, ih hrest, hv1, hv2, hv3]

theorem toInt32_small (n : Nat) (h : n < 2147483648) : toInt32 n = (n : Int) := by
  unfold toInt32
  simp only [Nat.mod_eq_of_lt (show n < 4294967296 by omega)]
  rw [if_pos h]

theorem jsTag_small (fn wt : Nat) (h : fn * 8 + wt < 2147483648) :
    jsTag fn wt = ((fn * 8 + wt : Nat) : Int) := by
  unfold jsTag
  rw [Nat.mod_eq_of_lt (show fn * 8 < 4294967296 by omega)]
  exact toInt32_small _ h

theorem tagBytes_spec (fn wt : Nat) (h : fn * 8 + wt < 2147483648) :
    encodeVarint (jsTag fn wt) = varintSpecEncoding (fn * 8 + wt) := by
  rw [jsTag_small fn wt h, encodeVarint_nonneg_eq_loop]
  exact encodeVarintLoop_eq_spec _ (by omega)

/-! ## Claim theorems -/

/-- C1 (amended): for every non-negative integer value up to `2^32 - 1`,
`encodeVarint` returns the base-128 varint encoding of the value — 7-bit
groups in little-endian group order, continuation bit set on every byte
except the last.  (The claimed 64-bit range fails: JavaScript `>>>` and `&`
truncate to 32 bits, see the counterexample at `2^32`.) -/
theorem encodeVarint_base128_below_2_32 (v : Nat) (hv : v < 4294967296) :
    encodeVarint (v : Int) = varintSpecEncoding v := by
  rw [encodeVarint_nonneg_eq_loop]
  exact encodeVarintLoop_eq_spec v hv

/-- Witness for C1: the amended theorem applied at the concrete input 300. -/
theorem encodeVarint_base128_below_2_32_witness :
    (300 : Nat) < 4294967296 ∧ encodeVarint ((300 : Nat) : Int) = varintSpecEncoding 300 :=
  ⟨by norm_num, encodeVarint_base128_below_2_32 300 (by norm_num)⟩

/-- Counterexample for C1 as stated: at `2^32` (well inside the claimed
64-bit range) `encodeVarint` emits `[0x80, 0x00]` — a non-canonical encoding
of 0 — instead of the five-byte varint encoding of `2^32`. -/
theorem encodeVarint_wrong_at_2_32 :
    encodeVarint ((4294967296 : Nat) : Int) = [128, 0] ∧
    varintSpecEncoding 4294967296 = [128, 128, 128, 128, 16] ∧
    encodeVarint ((4294967296 : Nat) : Int) ≠ varintSpecEncoding 4294967296 := by
  refine ⟨?_, ?_, ?_⟩
  · rw [encodeVarint_nonneg_eq_loop]
    simp [encodeVarintLoop]
  · simp [varintSpecEncoding]
  · rw [encodeVarint_nonneg_eq_loop]
    simp [encodeVarintLoop, varintSpecEncoding]

/-- C2 (code bug): for a negative input `encodeVarint` does not fail at all:
the loop guard `value > 0x7f` is false, the single byte `value & 0x7f` is
pushed, and the result is a well-formed varint.  At the failing input `-1`
the code silently returns `[0x7f]`, the canonical varint encoding of 127,
instead of raising a descriptive error as the spec requires. -/
theorem encodeVarint_negative_silently_wraps :
    encodeVarint (-1) = [127] ∧ encodeVarint (-1) = varintSpecEncoding 127 := by
  have h : ((-1 : Int).emod 128).toNat = 127 := by decide
  constructor
  · simp [encodeVarint, h]
  · simp [encodeVarint, varintSpecEncoding, h]

/-- C3: encoding a `ChannelSettings` whose `channelNum` is 0 emits zero
bytes for field 1 (byte-identical to the encoding with the field absent),
and encoding one whose `channelNum` is 3 prepends a non-empty field-1
encoding — tag varint `(1 << 3) | 0 = 8` followed by the payload
varint(3). -/
theorem buildChannelSettings_channelNum_field1 (s t : ChannelSettings)
    (hs : s.channelNum = some 0) (ht : t.channelNum = some 3) :
    buildChannelSettings s = buildChannelSettings { s with channelNum := none } ∧
    buildChannelSettings t =
      encodeUint32 1 3 ++ buildChannelSettings { t with channelNum := none } ∧
    encodeUint32 1 3 = varintSpecEncoding 8 ++ varintSpecEncoding 3 ∧
    encodeUint32 1 3 ≠ [] := by
  refine ⟨?_, ?_, ?_, ?_⟩
  · simp [buildChannelSettings, hs, concatUint8Arrays]
  · simp [buildChannelSettings, ht, concatUint8Arrays]
  · simp [encodeUint32, encodeField, WIRE_TYPE_VARINT, jsTag, toInt32, encodeVarint,
      encodeVarintLoop, varintSpecEncoding]
  · simp [encodeUint32, encodeField, WIRE_TYPE_VARINT, jsTag, toInt32, encodeVarint,
      encodeVarintLoop]

/-- Witness for C3: the theorem applied to the concrete settings objects
with `channelNum` 0 and 3. -/
theorem buildChannelSettings_channelNum_field1_witness :
    buildChannelSettings { channelNum := some 0 } =
      buildChannelSettings { ({ channelNum := some 0 } : ChannelSettings) with
        channelNum := none } ∧
    buildChannelSettings { channelNum := some 3 } =
      encodeUint32 1 3 ++ buildChannelSettings { ({ channelNum := some 3 } : ChannelSettings) with
        channelNum := none } ∧
    encodeUint32 1 3 = varintSpecEncoding 8 ++ varintSpecEncoding 3 ∧
    encodeUint32 1 3 ≠ [] :=
  buildChannelSettings_channelNum_field1 _ _ rfl rfl

/-- C4: `buildChannelSet` emits each entry of `config.channels`, in order,
as one length-delimited field-1 submessage per entry, followed by the
LoRaConfig as a length-delimited field-2 submessage when present, as a
byte-exact concatenation with no separators and no outer length prefix. -/
theorem buildChannelSet_wire_layout (config : Config) (chs : List Channel)
    (h : config.channels = some chs) :
    buildChannelSet config =
      (chs.map (fun channel =>
        encodeField 1 WIRE_TYPE_LENGTH_DELIMITED
          (FieldData.bytes (buildChannel channel)))).flatten ++
      (match config.lora with
       | some l => encodeField 2 WIRE_TYPE_LENGTH_DELIMITED (FieldData.bytes (buildLoRaConfig l))
       | none => []) := by
  cases hl : config.lora <;> simp [buildChannelSet, concatUint8Arrays, h, hl]

/-- Witness for C4: the theorem applied to a concrete two-channel
configuration with a LoRa config present. -/
theorem buildChannelSet_wire_layout_witness :
    buildChannelSet { channels := some [{ index := some 0 }, { role := some 2 }]
                      lora := some HYPHAE_MESH_LORA } =
      ([({ index := some 0 } : Channel), { role := some 2 }].map (fun channel =>
        encodeField 1 WIRE_TYPE_LENGTH_DELIMITED
          (FieldData.bytes (buildChannel channel)))).flatten ++
      (match ({ channels := some [{ index := some 0 }, { role := some 2 }]
                lora := some HYPHAE_MESH_LORA } : Config).lora with
       | some l => encodeField 2 WIRE_TYPE_LENGTH_DELIMITED (FieldData.bytes (buildLoRaConfig l))
       | none => []) :=
  buildChannelSet_wire_layout _ _ rfl

/-- C5 (amended): for every field number and wire type whose tag value
`fieldNumber * 8 + wireType` is below `2^31` (the JavaScript 32-bit shift
does not overflow), the encoded field begins with the varint of the tag, and
a length-delimited field is exactly tag ++ varint(payload length) ++
payload.  (For `fieldNumber ≥ 2^28` the claim fails, see the
counterexample.) -/
theorem encodeField_tag_and_layout (fn wt : Nat) (d : FieldData) (payload : List Nat)
    (h : fn * 8 + wt < 2147483648) (hlen : payload.length < 4294967296) :
    (∃ rest, encodeField fn wt d = varintSpecEncoding (fn * 8 + wt) ++ rest) ∧
    encodeField fn WIRE_TYPE_LENGTH_DELIMITED (FieldData.bytes payload) =
      varintSpecEncoding (fn * 8 + 2) ++ varintSpecEncoding payload.length ++ payload := by
  have h2 : fn * 8 + 2 < 2147483648 := by omega
  constructor
  · simp only [encodeField]
    by_cases h0 : wt = WIRE_TYPE_VARINT
    · subst h0
      cases d with
      | varint v => exact ⟨encodeVarint v, by simp [tagBytes_spec _ _ h]⟩
      | bytes bs => exact ⟨[], by simp [tagBytes_spec _ _ h]⟩
    · by_cases h1 : wt = WIRE_TYPE_LENGTH_DELIMITED
      · subst h1
        simp only [if_neg h0, if_pos rfl]
        cases d with
        | varint v => exact ⟨[], by simp [tagBytes_spec _ _ h]⟩
        | bytes bs =>
            exact ⟨encodeVarint (bs.length : Int) ++ bs, by
              simp [tagBytes_spec _ _ h, List.append_assoc]⟩
      · simp only [if_neg h0, if_neg h1]
        exact ⟨[], by simp [tagBytes_spec _ _ h]⟩
  · simp only [encodeField, WIRE_TYPE_LENGTH_DELIMITED, WIRE_TYPE_VARINT]
    norm_num
    rw [tagBytes_spec _ _ h2, encodeVarint_nonneg_eq_loop, encodeVarintLoop_eq_spec _ hlen]

/-- Witness for C5: the amended theorem applied to field 2, wire type 2,
payload `[1]` (the default-PSK field of the schema). -/
theorem encodeField_tag_and_layout_witness :
    ((2 : Nat) * 8 + 2 < 2147483648 ∧ ([1] : List Nat).length < 4294967296) ∧
    (∃ rest, encodeField 2 2 (FieldData.bytes [1]) = varintSpecEncoding (2 * 8 + 2) ++ rest) ∧
    encodeField 2 WIRE_TYPE_LENGTH_DELIMITED (FieldData.bytes [1]) =
      varintSpecEncoding (2 * 8 + 2) ++ varintSpecEncoding ([1] : List Nat).length ++ [1] :=
  ⟨⟨by norm_num, by norm_num⟩,
   encodeField_tag_and_layout 2 2 (FieldData.bytes [1]) [1] (by norm_num) (by norm_num)⟩

/-- Counterexample for C5 as stated: at field number `2^28` the JavaScript
shift `fieldNumber << 3` overflows to `-2^31`, so the encoded field begins
with the single byte `0x00` instead of the five-byte varint of the
mathematical tag `2^31`. -/
theorem encodeField_tag_overflow_cex :
    encodeField 268435456 WIRE_TYPE_VARINT (FieldData.varint 0) = [0, 0] ∧
    varintSpecEncoding (268435456 * 8 + 0) = [128, 128, 128, 128, 8] ∧
    ¬ ∃ rest, encodeField 268435456 WIRE_TYPE_VARINT (FieldData.varint 0) =
        varintSpecEncoding (268435456 * 8 + 0) ++ rest := by
  have hj : jsTag 268435456 0 = -2147483648 := by
    unfold jsTag toInt32
    norm_num
  have hvneg : encodeVarint (-2147483648) = [0] := by
    have h0 : (((-2147483648 : Int)).emod 128).toNat = 0 := by decide
    simp [encodeVarint, h0]
  have hv0 : encodeVarint 0 = [0] := by
    simp [encodeVarint, encodeVarintLoop]
  have e1 : encodeField 268435456 WIRE_TYPE_VARINT (FieldData.varint 0) = [0, 0] := by
    simp [encodeField, WIRE_TYPE_VARINT, hj, hvneg, hv0]
  have e2 : varintSpecEncoding (268435456 * 8 + 0) = [128, 128, 128, 128, 8] := by
    norm_num
    simp [varintSpecEncoding]
  refine ⟨e1, e2, ?_⟩
  rintro ⟨rest, hr⟩
  rw [e1, e2] at hr
  simp at hr

/-- C6: the base64url output never contains `+`, `/` or `=`: every
character survives the `=`-stripping filter and is the image of the two
substitutions, which never produce `+` or `/`. -/
theorem uint8ArrayToBase64URL_alphabet (bytes : List Nat) (c : Char)
    (hc : c ∈ uint8ArrayToBase64URL bytes) :
    c ≠ '+' ∧ c ≠ '/' ∧ c ≠ '=' := by
  unfold uint8ArrayToBase64URL at hc
  rw [List.mem_filter] at hc
  obtain ⟨hmem, hne⟩ := hc
  have hne' : c ≠ '=' := by simpa using hne
  rw [List.mem_map] at hmem
  obtain ⟨d, hd, rfl⟩ := hmem
  rw [List.mem_map] at hd
  obtain ⟨e, _, rfl⟩ := hd
  refine ⟨?_, ?_, hne'⟩
  · unfold subSlash subPlus
    split_ifs <;> simp_all
  · unfold subSlash
    split_ifs with h
    · decide
    · exact h

/-- Witness for C6: the theorem applied to the byte sequence `[0]` and the
character `A` of its encoding. -/
theorem uint8ArrayToBase64URL_alphabet_witness :
    'A' ∈ uint8ArrayToBase64URL [0] ∧ ('A' ≠ '+' ∧ 'A' ≠ '/' ∧ 'A' ≠ '=') :=
  ⟨by decide, uint8ArrayToBase64URL_alphabet [0] 'A' (by decide)⟩

/-- C7: for every byte sequence `b`, `fromBase64URL (toBase64URL b) = b` —
the decode operation (reinstate padding, reverse the character substitution,
decode standard base64) is a left inverse of the encode operation.  The
decode side is modelled from the spec (§4.4); the source implements only the
encode direction. -/
theorem fromBase64URL_toBase64URL (b : List Nat) (hb : ∀ x ∈ b, x < 256) :
    fromBase64URL (uint8ArrayToBase64URL b) = some b := by
  obtain ⟨p, hp, hu⟩ := base64url_reconstruction b
  unfold fromBase64URL
  rw [hp]
  show atobDecode (p.map unsub) = some b
  rw [hu]
  exact atobDecode_btoa b hb

/-- Witness for C7: the round trip applied to the concrete byte sequence
`[0, 255, 7]` (length 3, exercising the no-padding branch). -/
theorem fromBase64URL_toBase64URL_witness :
    (∀ x ∈ ([0, 255, 7] : List Nat), x < 256) ∧
    fromBase64URL (uint8ArrayToBase64URL [0, 255, 7]) = some [0, 255, 7] :=
  ⟨by decide, fromBase64URL_toBase64URL [0, 255, 7] (by decide)⟩

/-- C8: the generated deep-link URL is the base URL
`https://meshtastic.org/e/`, then `#`, then the unpadded base64url framing
of the serialized ChannelSet bytes. -/
theorem generateMeshtasticURL_shape (config : Config) :
    generateMeshtasticURL config =
      "https://meshtastic.org/e/".data ++ ['#'] ++
        uint8ArrayToBase64URL (buildChannelSet config) := by
  have h : "https://meshtastic.org/e/#".data = "https://meshtastic.org/e/".data ++ ['#'] := by
    decide
  simp [generateMeshtasticURL, h]

/-- C9: `generatePrivateChannelURL` builds exactly one channel, with role 1
(primary) and uplink/downlink both disabled, carrying the freshly generated
256-bit PSK; the returned `psk` field is the standard base64 (not base64url)
encoding of the raw PSK and decodes back to exactly the 32 PSK bytes. -/
theorem generatePrivateChannelURL_private_primary (channelName : Option (List Char))
    (psk : List Nat) (hlen : psk.length = 32) (hbytes : ∀ x ∈ psk, x < 256) :
    (∃ ch st, (privateChannelConfig channelName psk).channels = some [ch] ∧
      ch.settings = some st ∧ ch.role = some 1 ∧
      st.uplinkEnabled = some false ∧ st.downlinkEnabled = some false ∧
      st.psk = some psk) ∧
    (generatePrivateChannelURL channelName psk).url =
      generateMeshtasticURL (privateChannelConfig channelName psk) ∧
    (generatePrivateChannelURL channelName psk).psk = uint8ArrayToBase64 psk ∧
    atobDecode ((generatePrivateChannelURL channelName psk).psk) = some psk ∧
    psk.length = 32 := by
  refine ⟨⟨_, _, rfl, rfl, rfl, rfl, rfl, rfl⟩, rfl, rfl, ?_, hlen⟩
  show atobDecode (uint8ArrayToBase64 psk) = some psk
  exact atobDecode_btoa psk hbytes

/-- Witness for C9: the theorem applied to the concrete 32-byte PSK
`List.range 32` with no channel name. -/
theorem generatePrivateChannelURL_private_primary_witness :
    ((List.range 32).length = 32 ∧ ∀ x ∈ List.range 32, x < 256) ∧
    atobDecode ((generatePrivateChannelURL none (List.range 32)).psk) =
      some (List.range 32) :=
  ⟨⟨by decide, by decide⟩,
   (generatePrivateChannelURL_private_primary none (List.range 32)
     (by decide) (by decide)).2.2.2.1⟩

/-- C10: a `ChannelSettings` whose `name` is the empty string encodes with
zero bytes for field 3, byte-identical to the encoding with `name` entirely
absent: the blank-name ("primary channel") convention is conveyed purely by
omission. -/
theorem buildChannelSettings_empty_name_field3 (s : ChannelSettings)
    (h : s.name = some []) :
    buildChannelSettings s = buildChannelSettings { s with name := none } := by
  simp [buildChannelSettings, h]

/-- Witness for C10: the theorem applied to the concrete settings object
whose name is the empty string. -/
theorem buildChannelSettings_empty_name_field3_witness :
    buildChannelSettings { name := some [] } =
      buildChannelSettings { ({ name := some [] } : ChannelSettings) with name := none } :=
  buildChannelSettings_empty_name_field3 _ rfl

end Nodeville
